import Mathlib

/-!
Verification of the PersonalFinanceTracker console program (src/main.cpp).

The C++ program is shallowly embedded: `double` amounts become `ℚ`,
`int` values become `ℤ`, the class hierarchies `Transaction`
(Income / Expenditure) and `Investment` (SIP / FD) become sum types,
`FinanceManager` holds the two append-only vectors as lists, and `User`
carries the manager together with the running balance.  Console reads
become explicit parameters of the operations; console writes carry no
model state and are dropped.
-/

namespace Finance

/-- Embeds the `Transaction` hierarchy: base fields `amount`,
`description`; the two derived classes `Income` and `Expenditure`
become the two constructors. -/
inductive Transaction where
  | Income (amount : ℚ) (description : String)
  | Expenditure (amount : ℚ) (description : String)
  deriving DecidableEq, Repr

/-- `Transaction::getAmount`. -/
def Transaction.getAmount : Transaction → ℚ
  | .Income amount _ => amount
  | .Expenditure amount _ => amount

/-- `Transaction::getType` (pure virtual, overridden in each class). -/
def Transaction.getType : Transaction → String
  | .Income _ _ => "Income"
  | .Expenditure _ _ => "Expenditure"

/-- `SIP::ANNUAL_RATE = 0.096`. -/
def SIP_ANNUAL_RATE : ℚ := 96 / 1000

/-- `FD::ANNUAL_RATE = 0.071`. -/
def FD_ANNUAL_RATE : ℚ := 71 / 1000

/-- Embeds the `Investment` hierarchy: base fields `principal`,
`durationYears`; the derived class `SIP` adds `monthlyInvestment`,
`FD` adds nothing. -/
inductive Investment where
  | SIP (principal : ℚ) (durationYears : ℤ) (monthlyInvestment : ℚ)
  | FD (principal : ℚ) (durationYears : ℤ)
  deriving DecidableEq, Repr

/-- `Investment::getPrincipal`. -/
def Investment.getPrincipal : Investment → ℚ
  | .SIP principal _ _ => principal
  | .FD principal _ => principal

/-- The protected `durationYears` field of `Investment`. -/
def Investment.durationYears : Investment → ℤ
  | .SIP _ durationYears _ => durationYears
  | .FD _ durationYears => durationYears

/-- `Investment::getType` (overridden in `SIP` and `FD`). -/
def Investment.getType : Investment → String
  | .SIP _ _ _ => "SIP"
  | .FD _ _ => "Fixed Deposit"

/-- `Investment::getMaturityAmount`, dispatching to the `SIP` and `FD`
overrides.  `SIP`: `principal * (1 + r/12)^(durationYears*12)` plus
`monthlyInvestment * ((pow(1 + r/12, durationYears*12) - 1) / (r/12))`
with `r = ANNUAL_RATE = 0.096`.  `FD`: `principal *
pow(1 + ANNUAL_RATE, durationYears)` with `ANNUAL_RATE = 0.071`. -/
def Investment.getMaturityAmount : Investment → ℚ
  | .SIP principal durationYears monthlyInvestment =>
      let finalAmount := principal * (1 + SIP_ANNUAL_RATE / 12) ^ (durationYears * 12)
      let monthlyContributionFutureValue :=
        monthlyInvestment *
          (((1 + SIP_ANNUAL_RATE / 12) ^ (durationYears * 12) - 1) / (SIP_ANNUAL_RATE / 12))
      finalAmount + monthlyContributionFutureValue
  | .FD principal durationYears =>
      principal * (1 + FD_ANNUAL_RATE) ^ durationYears

/-- Embeds `FinanceManager`: the two owning vectors, as lists in
insertion order (push_back = append at the tail). -/
structure FinanceManager where
  transactions : List Transaction := []
  investments : List Investment := []
  deriving DecidableEq, Repr

/-- `FinanceManager::addTransaction`: `transactions.push_back(t)`. -/
def FinanceManager.addTransaction (m : FinanceManager) (t : Transaction) : FinanceManager :=
  { m with transactions := m.transactions ++ [t] }

/-- `FinanceManager::addInvestment`: `investments.push_back(i)`. -/
def FinanceManager.addInvestment (m : FinanceManager) (i : Investment) : FinanceManager :=
  { m with investments := m.investments ++ [i] }

/-- `FinanceManager::getTransactions`. -/
def FinanceManager.getTransactions (m : FinanceManager) : List Transaction :=
  m.transactions

/-- `FinanceManager::getInvestments`. -/
def FinanceManager.getInvestments (m : FinanceManager) : List Investment :=
  m.investments

/-- `User::MINIMUM_BALANCE = 1000.0`. -/
def MINIMUM_BALANCE : ℚ := 1000

/-- Embeds `User`: the owned `FinanceManager` and the running balance. -/
structure User where
  manager : FinanceManager := {}
  balance : ℚ
  deriving DecidableEq, Repr

/-- `User::recordIncome`: the console reads become the parameters
`amt`, `desc`; then `balance += amt` and an `Income` transaction is
appended.  No guard of any kind. -/
def User.recordIncome (u : User) (amt : ℚ) (desc : String) : User :=
  { u with balance := u.balance + amt,
           manager := u.manager.addTransaction (.Income amt desc) }

/-- `User::recordExpenditure`: read `amt`; if
`balance - amt < MINIMUM_BALANCE` print an error and return with no
state change; else read `desc`, `balance -= amt`, append an
`Expenditure` transaction. -/
def User.recordExpenditure (u : User) (amt : ℚ) (desc : String) : User :=
  if u.balance - amt < MINIMUM_BALANCE then u
  else
    { u with balance := u.balance - amt,
             manager := u.manager.addTransaction (.Expenditure amt desc) }

/-- `User::makeInvestment`: read the investment-type `choice`
(0 returns to the menu at once); read `principal`; if
`balance - principal < MINIMUM_BALANCE` print an error and return with
no state change; read `duration`; on choice 1 read `monthly`, append a
`SIP` and `balance -= principal`; on choice 2 append an `FD` and
`balance -= principal`; any other choice prints "Invalid investment
type" and changes nothing. -/
def User.makeInvestment (u : User) (choice : ℤ) (principal : ℚ)
    (duration : ℤ) (monthly : ℚ) : User :=
  if choice = 0 then u
  else if u.balance - principal < MINIMUM_BALANCE then u
  else if choice = 1 then
    { u with manager := u.manager.addInvestment (.SIP principal duration monthly),
             balance := u.balance - principal }
  else if choice = 2 then
    { u with manager := u.manager.addInvestment (.FD principal duration),
             balance := u.balance - principal }
  else u

/-- One round of the `while (choice != 0)` body of `User::run`: the
menu is printed, `choice` is read (here a parameter), and the switch
dispatches.  Cases 4, 5, 6 call the three display functions of
`FinanceManager` (console output only), case 0 prints the goodbye
message, the default case prints "Invalid option"; none of those four
touches the model state. -/
structure MenuInput where
  choice : ℤ
  amount : ℚ := 0
  description : String := ""
  invChoice : ℤ := 0
  principal : ℚ := 0
  duration : ℤ := 0
  monthly : ℚ := 0
  deriving DecidableEq, Repr

/-- The state effect of one iteration of the `switch` inside
`User::run` on the given `MenuInput`. -/
def User.menuStep (u : User) (inp : MenuInput) : User :=
  if inp.choice = 1 then u.recordIncome inp.amount inp.description
  else if inp.choice = 2 then u.recordExpenditure inp.amount inp.description
  else if inp.choice = 3 then
    u.makeInvestment inp.invChoice inp.principal inp.duration inp.monthly
  else if inp.choice = 4 then u
  else if inp.choice = 5 then u
  else if inp.choice = 6 then u
  else if inp.choice = 0 then u
  else u

/-- `User::run`: the `while (choice != 0)` loop, driven by the finite
list of console inputs still to come.  `some u` means the loop
processed a selection 0 and terminated in state `u`; `none` means the
inputs were exhausted with the loop still blocked on the next read. -/
def runMenu : User → List MenuInput → Option User
  | _, [] => none
  | u, inp :: rest =>
    let v := u.menuStep inp
    if inp.choice = 0 then some v else runMenu v rest

/-- Folding `menuStep` over a finite prefix of inputs: the state after
any sequence of processed menu selections. -/
def runOps (u : User) (ops : List MenuInput) : User :=
  ops.foldl User.menuStep u

/-- `main`: `initialBalance = 5000.0`. -/
def initialBalance : ℚ := 5000

/-- `main`: `Finance::User user(initialBalance)`. -/
def initialUser : User := { balance := initialBalance }

/-- `main`: `return 0` after `user.run()` finishes. -/
def mainExitCode : ℤ := 0

/-- An operation against the bare ledger: one call to
`FinanceManager::addTransaction` or `FinanceManager::addInvestment`. -/
inductive LedgerOp where
  | addT (t : Transaction)
  | addI (i : Investment)
  deriving DecidableEq, Repr

/-- Dispatch one `LedgerOp` to the corresponding `FinanceManager`
method. -/
def FinanceManager.applyOp (m : FinanceManager) : LedgerOp → FinanceManager
  | .addT t => m.addTransaction t
  | .addI i => m.addInvestment i

/-- Run an interleaved sequence of ledger operations. -/
def FinanceManager.applyOps (m : FinanceManager) (ops : List LedgerOp) : FinanceManager :=
  ops.foldl FinanceManager.applyOp m

/-- The transactions an operation sequence adds, in order. -/
def addedTransactions (ops : List LedgerOp) : List Transaction :=
  ops.filterMap fun o => match o with | .addT t => some t | .addI _ => none

/-- The investments an operation sequence adds, in order. -/
def addedInvestments (ops : List LedgerOp) : List Investment :=
  ops.filterMap fun o => match o with | .addI i => some i | .addT _ => none

/-- A menu input whose numeric fields are all nonnegative. -/
def MenuInput.nonneg (inp : MenuInput) : Prop :=
  0 ≤ inp.amount ∧ 0 ≤ inp.principal ∧ 0 ≤ inp.duration ∧ 0 ≤ inp.monthly

instance (inp : MenuInput) : Decidable inp.nonneg := by
  unfold MenuInput.nonneg
  infer_instance

end Finance

namespace Finance

/-- C3: for every SIP with principal `p`, duration `d` years, monthly
contribution `m` and rate `r = 0.096`, the computed maturity value is
`p * (1 + r/12)^(12*d) + m * (((1 + r/12)^(12*d) - 1) / (r/12))`; in
particular `SIP(0, 1, 1000)` matures to
`1000 * ((1 + 0.008)^12 - 1) / 0.008`. -/
theorem sip_maturity_formula (p : ℚ) (d : ℤ) (m : ℚ) :
    (Investment.SIP p d m).getMaturityAmount
      = p * (1 + (96 : ℚ) / 1000 / 12) ^ (12 * d)
        + m * (((1 + (96 : ℚ) / 1000 / 12) ^ (12 * d) - 1) / ((96 : ℚ) / 1000 / 12)) ∧
    (Investment.SIP 0 1 1000).getMaturityAmount
      = 1000 * ((1 + (8 : ℚ) / 1000) ^ (12 : ℤ) - 1) / ((8 : ℚ) / 1000) := by
  constructor
  · show p * (1 + SIP_ANNUAL_RATE / 12) ^ (d * 12)
        + m * (((1 + SIP_ANNUAL_RATE / 12) ^ (d * 12) - 1) / (SIP_ANNUAL_RATE / 12)) = _
    rw [mul_comm d 12]
    norm_num [SIP_ANNUAL_RATE]
  · show (0 : ℚ) * (1 + SIP_ANNUAL_RATE / 12) ^ ((1 : ℤ) * 12)
        + 1000 * (((1 + SIP_ANNUAL_RATE / 12) ^ ((1 : ℤ) * 12) - 1) / (SIP_ANNUAL_RATE / 12)) = _
    norm_num [SIP_ANNUAL_RATE]

/-- C4: for every fixed deposit with principal `p` and duration `d`
years, the computed maturity value is `p * (1 + 0.071)^d` (annual
compounding); in particular `FD(1000, 5)` matures to
`1000 * 1.071^5`. -/
theorem fd_maturity_formula (p : ℚ) (d : ℤ) :
    (Investment.FD p d).getMaturityAmount = p * (1 + (71 : ℚ) / 1000) ^ d ∧
    (Investment.FD 1000 5).getMaturityAmount = 1000 * ((1071 : ℚ) / 1000) ^ (5 : ℤ) := by
  constructor
  · rfl
  · show (1000 : ℚ) * (1 + FD_ANNUAL_RATE) ^ (5 : ℤ) = _
    norm_num [FD_ANNUAL_RATE]

/-- C1: an expenditure of `a` (and an investment of principal `a`,
here written `p`) is rejected with all state unchanged when
`balance - a < 1000`; otherwise the balance decreases by exactly `a`
and exactly one corresponding record (Expenditure transaction, or
SIP/FD investment) is appended to the ledger. -/
theorem balance_guard_law (u : User) (a : ℚ) (d : String)
    (c : ℤ) (p : ℚ) (dur : ℤ) (m : ℚ) :
    (u.balance - a < MINIMUM_BALANCE → u.recordExpenditure a d = u) ∧
    (MINIMUM_BALANCE ≤ u.balance - a →
      (u.recordExpenditure a d).balance = u.balance - a ∧
      (u.recordExpenditure a d).manager.transactions
        = u.manager.transactions ++ [Transaction.Expenditure a d] ∧
      (u.recordExpenditure a d).manager.investments = u.manager.investments) ∧
    (u.balance - p < MINIMUM_BALANCE → u.makeInvestment c p dur m = u) ∧
    (MINIMUM_BALANCE ≤ u.balance - p →
      (u.makeInvestment 1 p dur m).balance = u.balance - p ∧
      (u.makeInvestment 1 p dur m).manager.investments
        = u.manager.investments ++ [Investment.SIP p dur m] ∧
      (u.makeInvestment 1 p dur m).manager.transactions = u.manager.transactions ∧
      (u.makeInvestment 2 p dur m).balance = u.balance - p ∧
      (u.makeInvestment 2 p dur m).manager.investments
        = u.manager.investments ++ [Investment.FD p dur] ∧
      (u.makeInvestment 2 p dur m).manager.transactions = u.manager.transactions) := by
  refine ⟨fun h => ?_, fun h => ?_, fun h => ?_, fun h => ?_⟩
  · simp [User.recordExpenditure, h]
  · simp [User.recordExpenditure, not_lt.mpr h, FinanceManager.addTransaction]
  · by_cases hc : c = 0 <;>
      simp [User.makeInvestment, hc, h]
  · simp [User.makeInvestment, not_lt.mpr h, FinanceManager.addInvestment]

/-- Closed instance of the balance-guard law: from the initial balance
of 5000, an expenditure of 4500 is rejected (5000 - 4500 < 1000), an
expenditure of 1000 commits with the new balance 5000 - 1000, an
investment of 4500 is rejected, and SIP/FD investments of 1000
commit. -/
theorem balance_guard_law_witness :
    initialUser.recordExpenditure 4500 "rent" = initialUser ∧
    (initialUser.recordExpenditure 1000 "rent").balance = initialUser.balance - 1000 ∧
    initialUser.makeInvestment 1 4500 2 100 = initialUser ∧
    (initialUser.makeInvestment 1 1000 2 100).balance = initialUser.balance - 1000 ∧
    (initialUser.makeInvestment 2 1000 2 100).balance = initialUser.balance - 1000 := by
  have h1 := balance_guard_law initialUser 4500 "rent" 1 4500 2 100
  have h2 := balance_guard_law initialUser 1000 "rent" 1 1000 2 100
  refine ⟨h1.1 ?_, (h2.2.1 ?_).1, h1.2.2.1 ?_, (h2.2.2.2 ?_).1, (h2.2.2.2 ?_).2.2.2.1⟩ <;>
    norm_num [initialUser, initialBalance, MINIMUM_BALANCE]

/-- C2: a committed (non-rejected) expenditure or investment leaves
`balance >= MINIMUM_BALANCE = 1000`; recording income updates the
balance with no lower-bound check whatsoever (it commits for every
amount, including ones driving the balance below the minimum). -/
theorem committed_balance_above_minimum (u : User) (a : ℚ) (d : String)
    (p : ℚ) (dur : ℤ) (m : ℚ) :
    (MINIMUM_BALANCE ≤ u.balance - a →
      MINIMUM_BALANCE ≤ (u.recordExpenditure a d).balance) ∧
    (MINIMUM_BALANCE ≤ u.balance - p →
      MINIMUM_BALANCE ≤ (u.makeInvestment 1 p dur m).balance ∧
      MINIMUM_BALANCE ≤ (u.makeInvestment 2 p dur m).balance) ∧
    ((u.recordIncome a d).balance = u.balance + a ∧
      (u.recordIncome a d).manager.transactions
        = u.manager.transactions ++ [Transaction.Income a d]) := by
  refine ⟨fun h => ?_, fun h => ⟨?_, ?_⟩, ?_, ?_⟩
  · simpa [User.recordExpenditure, not_lt.mpr h] using h
  · simpa [User.makeInvestment, not_lt.mpr h] using h
  · simpa [User.makeInvestment, not_lt.mpr h] using h
  · simp [User.recordIncome]
  · simp [User.recordIncome, FinanceManager.addTransaction]

/-- Closed instance: from balance 5000, an expenditure of 4000 commits
and leaves the balance at the minimum, the two investment forms of
4000 likewise, and income always commits. -/
theorem committed_balance_above_minimum_witness :
    MINIMUM_BALANCE ≤ (initialUser.recordExpenditure 4000 "rent").balance ∧
    MINIMUM_BALANCE ≤ (initialUser.makeInvestment 1 4000 2 100).balance ∧
    MINIMUM_BALANCE ≤ (initialUser.makeInvestment 2 4000 2 100).balance ∧
    (initialUser.recordIncome 7 "pay").balance = initialUser.balance + 7 := by
  have h := committed_balance_above_minimum initialUser 4000 "rent" 4000 2 100
  have hg : MINIMUM_BALANCE ≤ initialUser.balance - 4000 := by
    norm_num [initialUser, initialBalance, MINIMUM_BALANCE]
  exact ⟨h.1 hg, (h.2.1 hg).1, (h.2.1 hg).2,
    (committed_balance_above_minimum initialUser 7 "pay" 4000 2 100).2.2.1⟩

/-- C5: recording an income of any amount `a >= 0` always succeeds,
increases the balance by exactly `a`, and appends exactly one Income
record with amount `a` to the transaction collection, leaving the
investment collection unchanged. -/
theorem record_income_effect (u : User) (a : ℚ) (d : String) (h : 0 ≤ a) :
    (u.recordIncome a d).balance = u.balance + a ∧
    (u.recordIncome a d).manager.transactions
      = u.manager.transactions ++ [Transaction.Income a d] ∧
    (u.recordIncome a d).manager.investments = u.manager.investments := by
  simp [User.recordIncome, FinanceManager.addTransaction]

/-- Closed instance: recording an income of 250 from the initial state
adds 250 to the balance and appends the one Income record. -/
theorem record_income_effect_witness :
    (initialUser.recordIncome 250 "salary").balance = initialUser.balance + 250 ∧
    (initialUser.recordIncome 250 "salary").manager.transactions
      = initialUser.manager.transactions ++ [Transaction.Income 250 "salary"] ∧
    (initialUser.recordIncome 250 "salary").manager.investments
      = initialUser.manager.investments :=
  record_income_effect initialUser 250 "salary" (by norm_num)

lemma applyOps_getTransactions (m : FinanceManager) (ops : List LedgerOp) :
    (m.applyOps ops).getTransactions = m.getTransactions ++ addedTransactions ops := by
  induction ops generalizing m with
  | nil => simp [FinanceManager.applyOps, addedTransactions]
  | cons o rest ih =>
    cases o with
    | addT t =>
      simpa [FinanceManager.applyOps, addedTransactions, FinanceManager.applyOp,
        FinanceManager.addTransaction, FinanceManager.getTransactions]
        using ih (m.addTransaction t)
    | addI i =>
      simpa [FinanceManager.applyOps, addedTransactions, FinanceManager.applyOp,
        FinanceManager.addInvestment, FinanceManager.getTransactions]
        using ih (m.addInvestment i)

lemma applyOps_getInvestments (m : FinanceManager) (ops : List LedgerOp) :
    (m.applyOps ops).getInvestments = m.getInvestments ++ addedInvestments ops := by
  induction ops generalizing m with
  | nil => simp [FinanceManager.applyOps, addedInvestments]
  | cons o rest ih =>
    cases o with
    | addT t =>
      simpa [FinanceManager.applyOps, addedInvestments, FinanceManager.applyOp,
        FinanceManager.addTransaction, FinanceManager.getInvestments]
        using ih (m.addTransaction t)
    | addI i =>
      simpa [FinanceManager.applyOps, addedInvestments, FinanceManager.applyOp,
        FinanceManager.addInvestment, FinanceManager.getInvestments]
        using ih (m.addInvestment i)

/-- C6: for every interleaved sequence of `addTransaction` and
`addInvestment` calls starting from the empty manager, enumerating
`getTransactions` yields exactly the added transactions in insertion
order, and `getInvestments` exactly the added investments in insertion
order. -/
theorem ledger_insertion_order (ops : List LedgerOp) :
    (FinanceManager.applyOps {} ops).getTransactions = addedTransactions ops ∧
    (FinanceManager.applyOps {} ops).getInvestments = addedInvestments ops := by
  constructor
  · simpa [FinanceManager.getTransactions] using applyOps_getTransactions {} ops
  · simpa [FinanceManager.getInvestments] using applyOps_getInvestments {} ops

/-- C7 counterexample: it is not true that after every sequence of
user operations all stored transactions have nonnegative amounts and
all stored investments have nonnegative principal and duration: the
single menu selection 1 with input amount -1 stores the transaction
Income(-1), whose amount is negative. -/
theorem stored_records_nonneg_counterexample :
    ¬ ∀ (ops : List MenuInput),
        (∀ t ∈ (runOps initialUser ops).manager.transactions, 0 ≤ t.getAmount) ∧
        (∀ i ∈ (runOps initialUser ops).manager.investments,
           0 ≤ i.getPrincipal ∧ 0 ≤ i.durationYears) := by
  intro h
  have hmem : Transaction.Income (-1) ""
      ∈ (runOps initialUser [{ choice := 1, amount := -1 }]).manager.transactions := by
    simp [runOps, User.menuStep, User.recordIncome, FinanceManager.addTransaction]
  have h1 := (h [{ choice := 1, amount := -1 }]).1 _ hmem
  norm_num [Transaction.getAmount] at h1

lemma menuStep_records (u : User) (inp : MenuInput) :
    ((u.menuStep inp).manager.transactions = u.manager.transactions ∨
     (u.menuStep inp).manager.transactions
       = u.manager.transactions ++ [Transaction.Income inp.amount inp.description] ∨
     (u.menuStep inp).manager.transactions
       = u.manager.transactions ++ [Transaction.Expenditure inp.amount inp.description]) ∧
    ((u.menuStep inp).manager.investments = u.manager.investments ∨
     (u.menuStep inp).manager.investments
       = u.manager.investments ++ [Investment.SIP inp.principal inp.duration inp.monthly] ∨
     (u.menuStep inp).manager.investments
       = u.manager.investments ++ [Investment.FD inp.principal inp.duration]) := by
  unfold User.menuStep User.recordIncome User.recordExpenditure User.makeInvestment
  split_ifs <;>
    simp [FinanceManager.addTransaction, FinanceManager.addInvestment]

/-- C7 amended: the program performs no sign validation, so the
nonnegativity of stored records holds exactly when the console inputs
are nonnegative: if every menu input in the sequence has nonnegative
amount, principal, duration and monthly fields, then after running the
sequence every stored transaction has `amount >= 0` and every stored
investment has `principal >= 0` and `durationYears >= 0`. -/
theorem stored_records_nonneg_of_nonneg_inputs (ops : List MenuInput)
    (h : ∀ inp ∈ ops, inp.nonneg) :
    (∀ t ∈ (runOps initialUser ops).manager.transactions, 0 ≤ t.getAmount) ∧
    (∀ i ∈ (runOps initialUser ops).manager.investments,
       0 ≤ i.getPrincipal ∧ 0 ≤ i.durationYears) := by
  have key : ∀ (os : List MenuInput) (u : User),
      (∀ inp ∈ os, inp.nonneg) →
      (∀ t ∈ u.manager.transactions, 0 ≤ t.getAmount) →
      (∀ i ∈ u.manager.investments, 0 ≤ i.getPrincipal ∧ 0 ≤ i.durationYears) →
      (∀ t ∈ (runOps u os).manager.transactions, 0 ≤ t.getAmount) ∧
      (∀ i ∈ (runOps u os).manager.investments,
         0 ≤ i.getPrincipal ∧ 0 ≤ i.durationYears) := by
    intro os
    induction os with
    | nil => intro u _ ht hi; exact ⟨ht, hi⟩
    | cons o rest ih =>
      intro u hos ht hi
      obtain ⟨ha, hp, hd, hm⟩ := hos o (by simp)
      have ht' : ∀ t ∈ (u.menuStep o).manager.transactions, 0 ≤ t.getAmount := by
        intro t htm
        rcases (menuStep_records u o).1 with he | he | he
        · rw [he] at htm; exact ht t htm
        · rw [he] at htm
          rcases List.mem_append.mp htm with hmem | hmem
          · exact ht t hmem
          · simp only [List.mem_singleton] at hmem
            subst hmem
            simpa [Transaction.getAmount] using ha
        · rw [he] at htm
          rcases List.mem_append.mp htm with hmem | hmem
          · exact ht t hmem
          · simp only [List.mem_singleton] at hmem
            subst hmem
            simpa [Transaction.getAmount] using ha
      have hi' : ∀ i ∈ (u.menuStep o).manager.investments,
          0 ≤ i.getPrincipal ∧ 0 ≤ i.durationYears := by
        intro i him
        rcases (menuStep_records u o).2 with he | he | he
        · rw [he] at him; exact hi i him
        · rw [he] at him
          rcases List.mem_append.mp him with hmem | hmem
          · exact hi i hmem
          · simp only [List.mem_singleton] at hmem
            subst hmem
            exact ⟨by simpa [Investment.getPrincipal] using hp,
              by simpa [Investment.durationYears] using hd⟩
        · rw [he] at him
          rcases List.mem_append.mp him with hmem | hmem
          · exact hi i hmem
          · simp only [List.mem_singleton] at hmem
            subst hmem
            exact ⟨by simpa [Investment.getPrincipal] using hp,
              by simpa [Investment.durationYears] using hd⟩
      have hrest : ∀ inp ∈ rest, inp.nonneg := fun inp hinp => hos inp (by simp [hinp])
      simpa [runOps] using ih (u.menuStep o) hrest ht' hi'
  exact key ops initialUser h (by simp [initialUser]) (by simp [initialUser])

/-- Closed instance of the amended C7: running income 250, expenditure
300, and a SIP of 500 over 3 years at 50 per month from the initial
state leaves only nonnegative amounts, principals and durations in the
ledger. -/
theorem stored_records_nonneg_of_nonneg_inputs_witness :
    (∀ t ∈ (runOps initialUser
        [{ choice := 1, amount := 250 },
         { choice := 2, amount := 300 },
         { choice := 3, invChoice := 1, principal := 500, duration := 3,
           monthly := 50 }]).manager.transactions, 0 ≤ t.getAmount) ∧
    (∀ i ∈ (runOps initialUser
        [{ choice := 1, amount := 250 },
         { choice := 2, amount := 300 },
         { choice := 3, invChoice := 1, principal := 500, duration := 3,
           monthly := 50 }]).manager.investments,
       0 ≤ i.getPrincipal ∧ 0 ≤ i.durationYears) := by
  apply stored_records_nonneg_of_nonneg_inputs
  intro inp hinp
  simp only [List.mem_cons, List.not_mem_nil, or_false] at hinp
  rcases hinp with h | h | h <;> subst h <;> constructor <;> norm_num

/-- C8: the reporting selections 4, 5, 6 and every rejected operation
(expenditure balance-guard breach, investment cancel, investment
balance-guard breach, invalid investment type, invalid menu choice)
leave the balance and both ledger collections unchanged, and for every
selection other than 0 control returns to the menu loop. -/
theorem reports_and_rejections_frame (u : User) (inp : MenuInput)
    (rest : List MenuInput) :
    ((inp.choice = 4 ∨ inp.choice = 5 ∨ inp.choice = 6) → u.menuStep inp = u) ∧
    (inp.choice = 2 → u.balance - inp.amount < MINIMUM_BALANCE →
      u.menuStep inp = u) ∧
    (inp.choice = 3 → inp.invChoice = 0 → u.menuStep inp = u) ∧
    (inp.choice = 3 → u.balance - inp.principal < MINIMUM_BALANCE →
      u.menuStep inp = u) ∧
    (inp.choice = 3 → inp.invChoice ≠ 1 → inp.invChoice ≠ 2 →
      u.menuStep inp = u) ∧
    ((inp.choice ≠ 0 ∧ inp.choice ≠ 1 ∧ inp.choice ≠ 2 ∧ inp.choice ≠ 3 ∧
      inp.choice ≠ 4 ∧ inp.choice ≠ 5 ∧ inp.choice ≠ 6) → u.menuStep inp = u) ∧
    (inp.choice ≠ 0 → runMenu u (inp :: rest) = runMenu (u.menuStep inp) rest) := by
  refine ⟨fun h => ?_, fun h hg => ?_, fun h h0 => ?_, fun h hg => ?_,
    fun h h1 h2 => ?_, fun h => ?_, fun h => ?_⟩
  · rcases h with h | h | h <;> simp [User.menuStep, h]
  · simp [User.menuStep, h, User.recordExpenditure, hg]
  · simp [User.menuStep, h, User.makeInvestment, h0]
  · simp [User.menuStep, h, User.makeInvestment, hg]
  · simp [User.menuStep, h, User.makeInvestment, h1, h2]
  · obtain ⟨h0, h1, h2, h3, h4, h5, h6⟩ := h
    simp [User.menuStep, h1, h2, h3, h4, h5, h6]
  · simp [runMenu, h]

/-- Closed instance: from the initial state, selection 4 is a pure
report, an expenditure of 4500 is rejected by the guard, the
investment cancel and an invalid investment type 7 change nothing, an
invalid menu selection 9 changes nothing, and a non-zero selection
continues the loop. -/
theorem reports_and_rejections_frame_witness :
    initialUser.menuStep { choice := 4 } = initialUser ∧
    initialUser.menuStep { choice := 2, amount := 4500 } = initialUser ∧
    initialUser.menuStep { choice := 3, invChoice := 0 } = initialUser ∧
    initialUser.menuStep { choice := 3, invChoice := 1, principal := 4500 }
      = initialUser ∧
    initialUser.menuStep { choice := 3, invChoice := 7, principal := 100 }
      = initialUser ∧
    initialUser.menuStep { choice := 9 } = initialUser ∧
    runMenu initialUser [{ choice := 4 }]
      = runMenu (initialUser.menuStep { choice := 4 }) [] := by
  refine ⟨(reports_and_rejections_frame initialUser { choice := 4 } []).1
      (Or.inl rfl),
    (reports_and_rejections_frame initialUser { choice := 2, amount := 4500 }
      []).2.1 rfl ?_,
    (reports_and_rejections_frame initialUser { choice := 3, invChoice := 0 }
      []).2.2.1 rfl rfl,
    (reports_and_rejections_frame initialUser
      { choice := 3, invChoice := 1, principal := 4500 } []).2.2.2.1 rfl ?_,
    (reports_and_rejections_frame initialUser
      { choice := 3, invChoice := 7, principal := 100 } []).2.2.2.2.1 rfl
      (by norm_num) (by norm_num),
    (reports_and_rejections_frame initialUser { choice := 9 } []).2.2.2.2.2.1
      (by norm_num),
    (reports_and_rejections_frame initialUser { choice := 4 } []).2.2.2.2.2.2
      (by norm_num)⟩ <;>
    norm_num [initialUser, initialBalance, MINIMUM_BALANCE]

/-- C9: the menu loop terminates exactly when a selection 0 is
processed: over any finite input sequence the loop has exited if and
only if some input has choice 0, processing a 0 exits at once, any
other selection continues the loop, and `main` then returns exit
code 0. -/
theorem menu_loop_exit (u : User) (inputs : List MenuInput) (inp : MenuInput)
    (rest : List MenuInput) :
    ((runMenu u inputs).isSome ↔ ∃ i ∈ inputs, i.choice = 0) ∧
    (inp.choice = 0 → runMenu u (inp :: rest) = some (u.menuStep inp)) ∧
    (inp.choice ≠ 0 → runMenu u (inp :: rest) = runMenu (u.menuStep inp) rest) ∧
    mainExitCode = 0 := by
  refine ⟨?_, fun h => by simp [runMenu, h], fun h => by simp [runMenu, h], rfl⟩
  induction inputs generalizing u with
  | nil => simp [runMenu]
  | cons j rest2 ih =>
    by_cases hj : j.choice = 0
    · have he : runMenu u (j :: rest2) = some (u.menuStep j) := by
        simp [runMenu, hj]
      rw [he]
      simp only [Option.isSome_some, true_iff]
      exact ⟨j, by simp, hj⟩
    · have he : runMenu u (j :: rest2) = runMenu (u.menuStep j) rest2 := by
        simp [runMenu, hj]
      rw [he, ih]
      constructor
      · rintro ⟨i, hi, hic⟩
        exact ⟨i, by simp [hi], hic⟩
      · rintro ⟨i, hi, hic⟩
        rcases List.mem_cons.mp hi with hcase | hcase
        · subst hcase; exact absurd hic hj
        · exact ⟨i, hcase, hic⟩

/-- Closed instance: processing selection 0 exits at once, a
non-exiting run over the single report selection 4 has not exited, and
the exit code is 0. -/
theorem menu_loop_exit_witness :
    runMenu initialUser [{ choice := 0 }]
      = some (initialUser.menuStep { choice := 0 }) ∧
    runMenu initialUser [{ choice := 4 }]
      = runMenu (initialUser.menuStep { choice := 4 }) [] ∧
    mainExitCode = 0 :=
  ⟨(menu_loop_exit initialUser [] { choice := 0 } []).2.1 rfl,
    (menu_loop_exit initialUser [] { choice := 4 } []).2.2.1 (by norm_num),
    (menu_loop_exit initialUser [] { choice := 4 } []).2.2.2⟩

/-- C10: no sign validation exists at the public interface: a negative
expenditure amount `a` passes the balance guard whenever
`balance >= 1000`, increasing the balance by `|a|` and appending an
Expenditure record with a negative amount; a negative investment
principal likewise passes the guard and increases the balance; a
negative income amount is accepted with no check and decreases the
balance — possibly below the minimum, as the closing concrete conjunct
shows. -/
theorem no_sign_validation (u : User) (a p : ℚ) (d : String) (dur : ℤ)
    (m : ℚ) :
    (a < 0 → MINIMUM_BALANCE ≤ u.balance →
      (u.recordExpenditure a d).balance = u.balance + |a| ∧
      (u.recordExpenditure a d).manager.transactions
        = u.manager.transactions ++ [Transaction.Expenditure a d]) ∧
    (p < 0 → MINIMUM_BALANCE ≤ u.balance →
      ¬(u.balance - p < MINIMUM_BALANCE) ∧
      (u.makeInvestment 1 p dur m).balance = u.balance + |p| ∧
      u.balance < (u.makeInvestment 1 p dur m).balance ∧
      (u.makeInvestment 2 p dur m).balance = u.balance + |p|) ∧
    (a < 0 →
      (u.recordIncome a d).balance = u.balance + a ∧
      (u.recordIncome a d).balance < u.balance) ∧
    (MINIMUM_BALANCE ≤ initialUser.balance ∧
      (initialUser.recordIncome (-4500) "refund").balance < MINIMUM_BALANCE) := by
  refine ⟨fun ha hb => ?_, fun hp hb => ?_, fun ha => ?_, ?_⟩
  · have hg : ¬(u.balance - a < MINIMUM_BALANCE) := not_lt.mpr (by linarith)
    constructor
    · rw [abs_of_neg ha]
      simp [User.recordExpenditure, hg]
      ring
    · simp [User.recordExpenditure, hg, FinanceManager.addTransaction]
  · have hg : ¬(u.balance - p < MINIMUM_BALANCE) := not_lt.mpr (by linarith)
    refine ⟨hg, ?_, ?_, ?_⟩
    · rw [abs_of_neg hp]
      simp [User.makeInvestment, hg]
      ring
    · simp only [User.makeInvestment, hg]
      norm_num
      linarith
    · rw [abs_of_neg hp]
      simp [User.makeInvestment, hg]
      ring
  · refine ⟨by simp [User.recordIncome], ?_⟩
    simp [User.recordIncome]
    linarith
  · constructor <;>
      norm_num [initialUser, initialBalance, MINIMUM_BALANCE, User.recordIncome]

/-- Closed instance: from the initial balance 5000, a negative
expenditure of -200 is accepted and raises the balance by 200, a
negative SIP principal of -200 is accepted and raises the balance, and
a negative income of -200 lowers the balance with no check. -/
theorem no_sign_validation_witness :
    (initialUser.recordExpenditure (-200) "oops").balance
      = initialUser.balance + |(-200 : ℚ)| ∧
    (initialUser.makeInvestment 1 (-200) 1 10).balance
      = initialUser.balance + |(-200 : ℚ)| ∧
    (initialUser.recordIncome (-200) "oops").balance < initialUser.balance := by
  have h := no_sign_validation initialUser (-200) (-200) "oops" 1 10
  have hb : MINIMUM_BALANCE ≤ initialUser.balance := by
    norm_num [initialUser, initialBalance, MINIMUM_BALANCE]
  exact ⟨(h.1 (by norm_num) hb).1, (h.2.1 (by norm_num) hb).2.1,
    (h.2.2.1 (by norm_num)).2⟩

end Finance
